import Mathlib

/-!
Verification development for the PPO continuous-control implementation in
PPO_c.py (classes ActorCritic, PPO, Memory and the driver main).

The embedding is shallow: tensors for trajectory data are modelled as exact
rational values together with a gradient-tracking flag, the five parallel
lists of Memory are Lean lists, and the external numeric collaborator
(network forward passes, Gaussian sampling/log-probability, the Adam step)
is an explicit Backend record of functions, as the spec treats it as an
external capability. Return computation, the clipped surrogate and the loss
aggregation are translated as exact arithmetic over rationals; the return
normalization, whose standard deviation is a genuine square root, is
translated over the reals.
-/

namespace PPOc

/-- Hyperparameter gamma = 0.99 (source line 21). -/
def gamma : ℚ := 99 / 100

/-- Hyperparameter eps_clip = 0.2 (source line 20). -/
def eps_clip : ℚ := 1 / 5

/-- Hyperparameter K_epochs = 80 (source line 19). -/
def K_epochs : ℕ := 80

/-- Hyperparameter action_std = 0.5 (source line 18). -/
def action_std : ℚ := 1 / 2

/-- A scalar torch tensor: a numeric value plus its gradient-tracking flag. -/
structure Tensor where
  val : ℚ
  requires_grad : Bool
  deriving DecidableEq

/-- tensor.detach(): same numeric value, gradient tracking removed. -/
def Tensor.detach (t : Tensor) : Tensor := ⟨t.val, false⟩

/-- The trajectory buffer Memory (source lines 141-147): five parallel lists. -/
structure Memory where
  actions : List Tensor
  states : List Tensor
  logprobs : List Tensor
  rewards : List ℚ
  is_terminals : List Bool
  deriving DecidableEq

/-- Memory.__init__ (source lines 142-147): all five lists start empty. -/
def Memory.init : Memory := ⟨[], [], [], [], []⟩

/-- Memory.clear_memory (source lines 149-154): del xs[:] on each of the five
lists empties them all. -/
def Memory.clear_memory (_ : Memory) : Memory := ⟨[], [], [], [], []⟩

/-- The external numeric collaborator over parameter type P: actor forward
pass, Gaussian sampling, Gaussian log-probability, and the net effect of one
zero_grad/backward/Adam-step sequence on the trainable parameters. -/
structure Backend (P : Type) where
  actorMean : P → ℚ → ℚ
  sample : ℚ → ℚ → ℚ → ℚ
  logProb : ℚ → ℚ → ℚ → ℚ
  gradStep : P → Memory → P

/-- An ActorCritic module instance: its trainable parameters (actor and
critic weights) and the fixed, non-trainable action variance
action_var = action_std * action_std (source line 50). -/
structure ActorCritic (P : Type) where
  params : P
  action_var : ℚ

/-- Error taxonomy named by the spec for construction-time validation. The
source defines no such class; it appears here only so that the absence of a
construction-time rejection is statable. -/
inductive ConstructionError
  | nonPositiveVariance
  deriving DecidableEq

/-- ActorCritic.__init__ (source lines 29-50): builds the two networks and
stores action_var = action_std * action_std. The body contains no validation
and no raise statement, so every call returns the constructed module. -/
def ActorCritic.construct {P : Type} (initP : P) (std : ℚ) :
    Except ConstructionError (ActorCritic P) :=
  Except.ok ⟨initP, std * std⟩

/-- ActorCritic.act (source lines 53-66): action_mean = actor(state) (tracked
by autograd), action = distribution.sample() (torch sampling is performed
without gradient tracking), action_logprob = distribution.log_prob(action)
(tracked); appends state, action and logprob to the buffer and returns
action.detach(). -/
def ActorCritic.act {P : Type} (B : Backend P) (ac : ActorCritic P)
    (state : Tensor) (mem : Memory) (ω : ℚ) : Tensor × Memory :=
  let action_mean : Tensor := ⟨B.actorMean ac.params state.val, true⟩
  let action : Tensor := ⟨B.sample action_mean.val ac.action_var ω, false⟩
  let action_logprob : Tensor :=
    ⟨B.logProb action_mean.val ac.action_var action.val, true⟩
  let memAfter : Memory :=
    { mem with
      states := mem.states ++ [state]
      actions := mem.actions ++ [action]
      logprobs := mem.logprobs ++ [action_logprob] }
  (action.detach, memAfter)

/-- The PPO optimizer state (source lines 89-94): the current snapshot
self.policy and the behavior snapshot self.policy_old. -/
structure PPOState (P : Type) where
  policy : ActorCritic P
  policy_old : ActorCritic P

/-- PPO.__init__ (source lines 82-96): constructs both snapshots and then
loads the current parameters into the old snapshot (line 94). No validation
is performed. -/
def PPO.construct {P : Type} (initP initOldP : P) (std : ℚ) :
    Except ConstructionError (PPOState P) := do
  let policy ← ActorCritic.construct initP std
  let policy_old ← ActorCritic.construct initOldP std
  Except.ok ⟨policy, { policy_old with params := policy.params }⟩

/-- PPO.action_selection (source lines 97-100): wraps the state in a fresh
non-tracked tensor, delegates to self.policy_old.act, and strips the result
to a plain number (.cpu().data.numpy().flatten()). No assignment to either
snapshot occurs, so the PPOState component of the result is the input state. -/
def PPO.action_selection {P : Type} (B : Backend P) (pp : PPOState P)
    (state : ℚ) (mem : Memory) (ω : ℚ) : PPOState P × ℚ × Memory :=
  let st : Tensor := ⟨state, false⟩
  let res := ActorCritic.act B pp.policy_old st mem ω
  (pp, res.1.val, res.2)

/-- PPO.update (source lines 102-140) as a state transformer. Lines 104-138
read the buffer (computing returns, stacking the stored tensors, running the
epoch loop) and change self.policy through exactly one optimizer step,
abstracted as B.gradStep; no statement in the body mutates any of the five
buffer lists, so the Memory component of the result is the input buffer.
Line 140 then copies the current parameters into the old snapshot. -/
def PPO.update {P : Type} (B : Backend P) (pp : PPOState P) (mem : Memory) :
    PPOState P × Memory :=
  let newParams := B.gradStep pp.policy.params mem
  let policy : ActorCritic P := { pp.policy with params := newParams }
  let policy_old : ActorCritic P := { pp.policy_old with params := newParams }
  (⟨policy, policy_old⟩, mem)

/-- The driver block of main (source lines 191-193): ppo.update(memory)
followed immediately by memory.clear_memory(). -/
def mainUpdateBlock {P : Type} (B : Backend P) (pp : PPOState P)
    (mem : Memory) : PPOState P × Memory :=
  let res := PPO.update B pp mem
  (res.1, res.2.clear_memory)

/-- One iteration of the return loop body (source lines 106-111): reset the
accumulator on a terminal flag, then fold in the reward, and prepend the new
return so the earliest step ends up first. -/
def returnStep (γ : ℚ) (acc : ℚ × List ℚ) (rt : ℚ × Bool) : ℚ × List ℚ :=
  let d := if rt.2 then (0 : ℚ) else acc.1
  let dNew := rt.1 + γ * d
  (dNew, dNew :: acc.2)

/-- The full return loop (source lines 104-111): traverse
zip(reversed(rewards), reversed(is_terminals)) with accumulator
(disc_reward, Returns) starting from (0, []). -/
def returnFold (γ : ℚ) (rewards : List ℚ) (terminals : List Bool) :
    ℚ × List ℚ :=
  (rewards.reverse.zip terminals.reverse).foldl (returnStep γ) (0, [])

/-- The Returns list produced by the loop at source lines 104-111. -/
def PPO.computeReturns (γ : ℚ) (rewards : List ℚ) (terminals : List Bool) :
    List ℚ :=
  (returnFold γ rewards terminals).2

/-- The discounted sum Σ_k γ^k · r_k of a reward suffix, as the spec states
the per-step return of an uninterrupted episode. -/
def discountedSum (γ : ℚ) : List ℚ → ℚ
  | [] => 0
  | r :: rs => r + γ * discountedSum γ rs

/-- torch.Tensor.mean() over a 1-D float tensor: NaN (modelled as none) on an
empty tensor, otherwise the arithmetic mean. -/
def torchMean (xs : List ℚ) : Option ℚ :=
  if xs.isEmpty then none else some (xs.sum / xs.length)

/-- The runtime failure torch.stack raises on an empty tensor list. -/
inductive TorchError
  | emptyStack
  deriving DecidableEq

/-- torch.stack: raises a RuntimeError on an empty list of tensors, otherwise
stacks them (source line 117 applies it to memory.states). -/
def torchStack (xs : List Tensor) : Except TorchError (List Tensor) :=
  if xs.isEmpty then Except.error TorchError.emptyStack else Except.ok xs

/-- The head of PPO.update (source lines 104-119) with the two observables an
empty buffer exercises: the value of Returns.mean() at line 115 (none = NaN),
computed unconditionally with no emptiness check, and the outcome of
torch.stack(memory.states) at line 117. -/
def PPO.updateHead (γ : ℚ) (mem : Memory) :
    Option ℚ × Except TorchError (List Tensor) :=
  let Returns := PPO.computeReturns γ mem.rewards mem.is_terminals
  (torchMean Returns, torchStack mem.states)

/-- torch.clamp(x, lo, hi) (source line 132). -/
def clamp (x lo hi : ℚ) : ℚ := max lo (min x hi)

/-- The per-step clipped surrogate L_CLIP of source lines 131-132:
min(ratio * advantage, clamp(ratio, 1-eps, 1+eps) * advantage). -/
def clippedSurrogate (eps r A : ℚ) : ℚ :=
  min (r * A) (clamp r (1 - eps) (1 + eps) * A)

/-- Mean of a batch tensor of rationals, indexed by Fin n. -/
def tmean {n : ℕ} (x : Fin n → ℚ) : ℚ := (∑ i, x i) / n

/-- nn.MSELoss() with default mean reduction (source lines 96 and 133): the
batch mean of squared errors, a scalar. -/
def MseLoss {n : ℕ} (v r : Fin n → ℚ) : ℚ := tmean fun i => (v i - r i) ^ 2

/-- The loss tensor of source line 133: the scalar 0.5 * MseLoss is broadcast
against the per-step vectors -L_CLIP and -0.01 * dist_entropy. -/
def lossVector {n : ℕ} (lclip v ret ent : Fin n → ℚ) : Fin n → ℚ :=
  fun i => -lclip i + (1 / 2) * MseLoss v ret - (1 / 100) * ent i

/-- The spec's per-step loss (spec step 7):
-surrogate + 0.5 * squared_error(value, return) - 0.01 * entropy. -/
def specStepLoss {n : ℕ} (lclip v ret ent : Fin n → ℚ) : Fin n → ℚ :=
  fun i => -lclip i + (1 / 2) * (v i - ret i) ^ 2 - (1 / 100) * ent i

/-- Mean of a batch tensor of reals. -/
noncomputable def tmeanR {n : ℕ} (x : Fin n → ℝ) : ℝ := (∑ i, x i) / n

/-- torch.Tensor.var() with the default unbiased (Bessel) normalization by
n - 1, which torch.Tensor.std() takes the square root of. -/
noncomputable def tvar {n : ℕ} (x : Fin n → ℝ) : ℝ :=
  (∑ i, (x i - tmeanR x) ^ 2) / ((n : ℝ) - 1)

/-- torch.Tensor.std(): square root of the unbiased variance. -/
noncomputable def tstd {n : ℕ} (x : Fin n → ℝ) : ℝ := Real.sqrt (tvar x)

/-- The normalization of source line 115:
Returns = (Returns - Returns.mean()) / (Returns.std() + 1e-5). -/
noncomputable def normalizeReturns {n : ℕ} (x : Fin n → ℝ) : Fin n → ℝ :=
  fun i => (x i - tmeanR x) / (tstd x + 1 / 100000)

/-- The gradient-step statements that source lines 136-140 place after the
epoch loop: optimizer.zero_grad(), loss.mean().backward(),
optimizer.step(), and the copy of current weights into the old policy. -/
inductive GradEvent
  | zero_grad
  | backward
  | optimizer_step
  | load_old
  deriving DecidableEq, BEq

/-- The epoch loop of source lines 122-126: for j in range(K), the body calls
self.policy.evaluate (its j-th result is ev j) and rebinds log_probs,
state_values, dist_entropy and ratios. The fold records the trace of call
indices and the binding left over after the loop. -/
def epochLoop {E : Type} (K : ℕ) (ev : ℕ → E) : List ℕ × Option E :=
  (List.range K).foldl (fun acc j => (acc.1 ++ [j], some (ev j))) ([], none)

/-- The control flow of source lines 122-140: the K-epoch evaluate loop,
followed (outside the loop, at one indentation level up) by a single
zero_grad / backward / optimizer step / old-policy sync sequence. -/
def updateFlow {E : Type} (K : ℕ) (ev : ℕ → E) :
    (List ℕ × Option E) × List GradEvent :=
  (epochLoop K ev,
   [GradEvent.zero_grad, GradEvent.backward, GradEvent.optimizer_step,
    GradEvent.load_old])

/-- A concrete backend over rational parameters, used to instantiate the
parametric theorems. -/
def B0 : Backend ℚ :=
  ⟨fun p s => p + s, fun m v ω => m + v * ω, fun m v a => m - v + a,
   fun p _ => p + 1⟩

/-- A concrete PPO state with both snapshots at parameter 0. -/
def pp0 : PPOState ℚ := ⟨⟨0, 1 / 4⟩, ⟨0, 1 / 4⟩⟩

/-- A concrete PPO state whose old snapshot matches ppB's. -/
def ppA : PPOState ℚ := ⟨⟨5, 1 / 4⟩, ⟨7, 1 / 4⟩⟩

/-- A concrete PPO state agreeing with ppA on the old snapshot only. -/
def ppB : PPOState ℚ := ⟨⟨6, 1 / 4⟩, ⟨7, 1 / 4⟩⟩

/-- A concrete one-step buffer. -/
def mem1 : Memory :=
  ⟨[⟨1, false⟩], [⟨2, false⟩], [⟨3, true⟩], [5], [true]⟩

/-- C3: action selection leaves the optimizer state (hence the old snapshot's
parameters) untouched, the action and recorded data depend only on the old
snapshot, and immediately after update returns the old snapshot's parameters
equal the current snapshot's parameters. -/
theorem old_policy_sync_protocol {P : Type} (B : Backend P)
    (pp pq pr : PPOState P) (state : ℚ) (mem : Memory) (ω : ℚ)
    (h : pq.policy_old = pr.policy_old) :
    (PPO.action_selection B pp state mem ω).1 = pp
    ∧ (PPO.action_selection B pq state mem ω).2 =
        (PPO.action_selection B pr state mem ω).2
    ∧ (PPO.update B pp mem).1.policy_old.params =
        (PPO.update B pp mem).1.policy.params := by
  refine ⟨rfl, ?_, rfl⟩
  unfold PPO.action_selection
  rw [h]

/-- Witness for C3 at concrete states ppA and ppB, which share an old
snapshot but differ on the current one. -/
theorem old_policy_sync_protocol_witness :
    ppA.policy_old = ppB.policy_old
    ∧ ((PPO.action_selection B0 pp0 1 Memory.init 0).1 = pp0
       ∧ (PPO.action_selection B0 ppA 1 Memory.init 0).2 =
           (PPO.action_selection B0 ppB 1 Memory.init 0).2
       ∧ (PPO.update B0 pp0 Memory.init).1.policy_old.params =
           (PPO.update B0 pp0 Memory.init).1.policy.params) :=
  ⟨rfl, old_policy_sync_protocol B0 pp0 ppA ppB 1 Memory.init 0 rfl⟩

/-- C5 counterexample: update(memory) returns the buffer exactly as it
received it; on a buffer holding one step, the sequences still have length 1,
not 0, immediately after update returns. -/
theorem update_leaves_buffer_nonempty :
    (PPO.update B0 pp0 mem1).2 = mem1
    ∧ (PPO.update B0 pp0 mem1).2.rewards.length ≠ 0
    ∧ (PPO.update B0 pp0 mem1).2.states.length ≠ 0 :=
  ⟨rfl, by decide, by decide⟩

/-- C5 amended: PPO.update never mutates the buffer; the clearing is done by
the driver, which calls memory.clear_memory() immediately after update
returns (main, lines 191-193), after which all five sequences are empty. -/
theorem update_then_driver_clear {P : Type} (B : Backend P) (pp : PPOState P)
    (mem : Memory) :
    (PPO.update B pp mem).2 = mem
    ∧ (mainUpdateBlock B pp mem).2.actions = []
    ∧ (mainUpdateBlock B pp mem).2.states = []
    ∧ (mainUpdateBlock B pp mem).2.logprobs = []
    ∧ (mainUpdateBlock B pp mem).2.rewards = []
    ∧ (mainUpdateBlock B pp mem).2.is_terminals = [] :=
  ⟨rfl, rfl, rfl, rfl, rfl, rfl⟩

/-- C8 counterexample: constructing the policy with action_std = 0, whose
variance 0 * 0 is non-positive, raises nothing: both ActorCritic and PPO
construction return ok. -/
theorem construct_zero_variance_ok :
    (0 : ℚ) * 0 ≤ 0
    ∧ ActorCritic.construct (P := ℚ) 0 0 = Except.ok ⟨0, 0⟩
    ∧ PPO.construct (P := ℚ) 0 3 0 = Except.ok ⟨⟨0, 0⟩, ⟨0, 0⟩⟩ := by
  refine ⟨by norm_num, ?_, ?_⟩ <;>
    norm_num [ActorCritic.construct, PPO.construct, Except.bind, bind]

/-- C8 amended: construction performs no validation at all. For every
action_std (zero and negative values included) ActorCritic.__init__ and
PPO.__init__ return the constructed objects, storing variance
action_std * action_std, with the old snapshot's parameters already synced to
the current ones; no ConstructionError is ever raised. -/
theorem construct_never_rejects {P : Type} (initP initOldP : P) (std : ℚ) :
    ActorCritic.construct initP std = Except.ok ⟨initP, std * std⟩
    ∧ PPO.construct initP initOldP std =
        Except.ok ⟨⟨initP, std * std⟩, ⟨initP, std * std⟩⟩ :=
  ⟨rfl, rfl⟩

/-- C9 counterexample: on the empty buffer, update does reach the
Returns.mean() reduction at line 115 - over the empty return list it yields
NaN (none) - and then fails at line 117 with torch.stack's RuntimeError on
the empty state list: neither an EmptyBufferError nor a no-op. -/
theorem update_empty_buffer_behavior :
    PPO.updateHead gamma Memory.init =
      (none, Except.error TorchError.emptyStack) := rfl

/-- C9 amended: update performs no emptiness check: on any buffer whose five
sequences are all empty it proceeds into the mean reduction over the empty
return sequence (yielding NaN) and then raises torch.stack's RuntimeError; it
neither raises an EmptyBufferError nor returns as a no-op. -/
theorem update_empty_buffer_no_guard (γ : ℚ) (mem : Memory)
    (_ha : mem.actions = []) (hs : mem.states = []) (_hl : mem.logprobs = [])
    (hr : mem.rewards = []) (hi : mem.is_terminals = []) :
    PPO.updateHead γ mem = (none, Except.error TorchError.emptyStack) := by
  unfold PPO.updateHead
  rw [hr, hi, hs]
  rfl

/-- Witness for C9 amended at the freshly initialized buffer. -/
theorem update_empty_buffer_no_guard_witness :
    (Memory.init.actions = [] ∧ Memory.init.states = []
      ∧ Memory.init.logprobs = [] ∧ Memory.init.rewards = []
      ∧ Memory.init.is_terminals = [])
    ∧ PPO.updateHead (99 / 100) Memory.init =
        (none, Except.error TorchError.emptyStack) :=
  ⟨⟨rfl, rfl, rfl, rfl, rfl⟩,
   update_empty_buffer_no_guard (99 / 100) Memory.init rfl rfl rfl rfl rfl⟩

/-- C10: each act call appends exactly one element to states, actions and
logprobs, leaves rewards and is_terminals unchanged, and returns a tensor
numerically equal to the recorded action with gradient tracking removed. -/
theorem act_appends_and_detaches {P : Type} (B : Backend P)
    (ac : ActorCritic P) (state : Tensor) (mem : Memory) (ω : ℚ) :
    (ActorCritic.act B ac state mem ω).2.states = mem.states ++ [state]
    ∧ (ActorCritic.act B ac state mem ω).2.actions.length =
        mem.actions.length + 1
    ∧ (ActorCritic.act B ac state mem ω).2.actions.dropLast = mem.actions
    ∧ (ActorCritic.act B ac state mem ω).2.logprobs.length =
        mem.logprobs.length + 1
    ∧ (ActorCritic.act B ac state mem ω).2.logprobs.dropLast = mem.logprobs
    ∧ (ActorCritic.act B ac state mem ω).2.rewards = mem.rewards
    ∧ (ActorCritic.act B ac state mem ω).2.is_terminals = mem.is_terminals
    ∧ (ActorCritic.act B ac state mem ω).2.actions.getLast?.map Tensor.val =
        some (ActorCritic.act B ac state mem ω).1.val
    ∧ (ActorCritic.act B ac state mem ω).1.requires_grad = false := by
  unfold ActorCritic.act Tensor.detach
  refine ⟨rfl, ?_, ?_, ?_, ?_, rfl, rfl, ?_, rfl⟩ <;>
    simp [List.getLast?_concat]

/-- Unfolding one trailing iteration of the epoch loop: after K + 1
iterations the trace has gained the index K and the loop-carried binding is
the result of the K-th (last) evaluate call. -/
theorem epochLoop_succ {E : Type} (K : ℕ) (ev : ℕ → E) :
    epochLoop (K + 1) ev = ((epochLoop K ev).1 ++ [K], some (ev K)) := by
  unfold epochLoop
  rw [List.range_succ, List.foldl_append]
  rfl

/-- The trace of evaluate-call indices produced by the epoch loop is exactly
range K: one call per epoch, in order. -/
theorem epochLoop_calls {E : Type} (K : ℕ) (ev : ℕ → E) :
    (epochLoop K ev).1 = List.range K := by
  induction K with
  | zero => rfl
  | succ k ih => rw [epochLoop_succ, ih, List.range_succ]

/-- C2: one update call runs the evaluate loop exactly K_epochs times (the
call trace is range K), yet the gradient block after the loop contains
exactly one backward pass and one optimizer step, and the bindings that feed
that single gradient step are those produced by the last epoch's evaluate
call. -/
theorem update_single_gradient_step {E : Type} (K : ℕ) (ev : ℕ → E)
    (hK : 0 < K) :
    (updateFlow K ev).1.1.length = K
    ∧ (updateFlow K ev).1.1 = List.range K
    ∧ (updateFlow K ev).1.2 = some (ev (K - 1))
    ∧ (updateFlow K ev).2.count GradEvent.backward = 1
    ∧ (updateFlow K ev).2.count GradEvent.optimizer_step = 1 := by
  obtain ⟨k, rfl⟩ : ∃ k, K = k + 1 :=
    ⟨K - 1, (Nat.succ_pred_eq_of_pos hK).symm⟩
  refine ⟨?_, ?_, ?_, ?_, ?_⟩
  · show (epochLoop (k + 1) ev).1.length = k + 1
    rw [epochLoop_calls, List.length_range]
  · exact epochLoop_calls (k + 1) ev
  · show (epochLoop (k + 1) ev).2 = some (ev (k + 1 - 1))
    rw [epochLoop_succ]
    rfl
  · show List.count GradEvent.backward
        [GradEvent.zero_grad, GradEvent.backward, GradEvent.optimizer_step,
         GradEvent.load_old] = 1
    decide
  · show List.count GradEvent.optimizer_step
        [GradEvent.zero_grad, GradEvent.backward, GradEvent.optimizer_step,
         GradEvent.load_old] = 1
    decide

/-- Witness for C2 at the source's K_epochs = 80. -/
theorem update_single_gradient_step_witness :
    0 < K_epochs
    ∧ ((updateFlow K_epochs (fun j => j)).1.1.length = K_epochs
       ∧ (updateFlow K_epochs (fun j => j)).1.1 = List.range K_epochs
       ∧ (updateFlow K_epochs (fun j => j)).1.2 = some 79
       ∧ (updateFlow K_epochs (fun j => j)).2.count GradEvent.backward = 1
       ∧ (updateFlow K_epochs (fun j => j)).2.count
           GradEvent.optimizer_step = 1) :=
  ⟨by decide, update_single_gradient_step K_epochs (fun j => j) (by decide)⟩

/-- C4 counterexample: with the source's eps_clip = 0.2, the ratio 1/2 lies
below the clipping band and the advantage 1 is positive, yet the surrogate is
the unclipped value 1/2, equal to neither boundary value 0.8 nor 1.2. -/
theorem surrogate_below_band_not_boundary :
    (1 / 2 : ℚ) < 1 - eps_clip ∧ (0 : ℚ) < 1
    ∧ clippedSurrogate eps_clip (1 / 2) 1 = 1 / 2
    ∧ clippedSurrogate eps_clip (1 / 2) 1 ≠ (1 - eps_clip) * 1
    ∧ clippedSurrogate eps_clip (1 / 2) 1 ≠ (1 + eps_clip) * 1 := by
  unfold clippedSurrogate clamp eps_clip
  norm_num [min_def, max_def]

/-- C4 amended: inside the band the surrogate equals the unclipped value; for
a ratio above the band with positive advantage it equals the upper boundary
value (1 + eps) * A; for a ratio below the band with positive advantage the
min keeps the unclipped value r * A, which lies strictly below the boundary
value (1 - eps) * A rather than equalling it. -/
theorem surrogate_clipping_cases (eps r A : ℚ) (heps : 0 ≤ eps) :
    (1 - eps ≤ r → r ≤ 1 + eps → clippedSurrogate eps r A = r * A)
    ∧ (1 + eps < r → 0 < A → clippedSurrogate eps r A = (1 + eps) * A)
    ∧ (r < 1 - eps → 0 < A →
        clippedSurrogate eps r A = r * A
        ∧ clippedSurrogate eps r A < (1 - eps) * A) := by
  unfold clippedSurrogate clamp
  refine ⟨?_, ?_, ?_⟩
  · intro h1 h2
    rw [min_eq_left h2, max_eq_right h1, min_self]
  · intro h1 h2
    rw [min_eq_right (le_of_lt h1), max_eq_right (by linarith)]
    exact min_eq_right (by nlinarith)
  · intro h1 h2
    rw [min_eq_left (show r ≤ 1 + eps by linarith),
        max_eq_left (le_of_lt h1)]
    have hlt : r * A < (1 - eps) * A := by nlinarith
    rw [min_eq_left hlt.le]
    exact ⟨rfl, hlt⟩

/-- Unfolding the return loop at the front of the buffer: with equally long
tails, the step for the earliest (reward, terminal) pair is the last one the
reversed traversal performs. -/
theorem returnFold_cons (γ r : ℚ) (b : Bool) (rs : List ℚ) (ts : List Bool)
    (h : rs.length = ts.length) :
    returnFold γ (r :: rs) (b :: ts) =
      returnStep γ (returnFold γ rs ts) (r, b) := by
  unfold returnFold
  rw [List.reverse_cons, List.reverse_cons,
      List.zip_append (by simpa using h), List.foldl_append]
  rfl

/-- Splitting the list of per-step discounted suffix sums of a :: l at its
head. -/
theorem range_map_drop (γ a : ℚ) (l : List ℚ) :
    (List.range (l.length + 1)).map
        (fun t => discountedSum γ ((a :: l).drop t)) =
      discountedSum γ (a :: l) ::
        (List.range l.length).map (fun t => discountedSum γ (l.drop t)) := by
  rw [List.range_succ_eq_map, List.map_cons, List.map_map]
  refine congrArg₂ List.cons ?_ ?_
  · simp
  · apply List.map_congr_left
    intro t _
    simp [List.drop_succ_cons]

/-- For a buffer holding a single uninterrupted episode (terminal flags all
false except the last), the return loop produces, from earliest step first,
the discounted sums of the reward suffixes; the final accumulator is the
full-episode return. -/
theorem returnFold_single_episode (γ : ℚ) (rs : List ℚ) (r : ℚ) :
    returnFold γ (r :: rs) (List.replicate rs.length false ++ [true]) =
      (discountedSum γ (r :: rs),
       (List.range (rs.length + 1)).map
         (fun t => discountedSum γ ((r :: rs).drop t))) := by
  induction rs generalizing r with
  | nil => rfl
  | cons b l ih =>
    rw [range_map_drop γ r (b :: l),
        show (b :: l).length = l.length + 1 from rfl,
        List.replicate_succ, List.cons_append,
        returnFold_cons γ r false (b :: l) _ (by simp), ih b]
    rfl

/-- The Returns list for a single uninterrupted episode is the list of
discounted suffix sums, earliest step first. -/
theorem computeReturns_single_episode (γ r : ℚ) (rs : List ℚ) :
    PPO.computeReturns γ (r :: rs)
        (List.replicate rs.length false ++ [true]) =
      (List.range (rs.length + 1)).map
        (fun t => discountedSum γ ((r :: rs).drop t)) := by
  unfold PPO.computeReturns
  rw [returnFold_single_episode]

/-- The recursive discounted suffix sum as a closed summation. -/
theorem discountedSum_eq_sum (γ : ℚ) (l : List ℚ) :
    discountedSum γ l = ∑ k ∈ Finset.range l.length, γ ^ k * l.getD k 0 := by
  induction l with
  | nil => simp [discountedSum]
  | cons r l ih =>
    show r + γ * discountedSum γ l =
      ∑ k ∈ Finset.range (r :: l).length, γ ^ k * (r :: l).getD k 0
    rw [List.length_cons, Finset.sum_range_succ', ih]
    have h1 : ∀ i ∈ Finset.range l.length,
        γ ^ (i + 1) * (r :: l).getD (i + 1) 0 =
          γ * (γ ^ i * l.getD i 0) := by
      intro i _
      rw [List.getD_cons_succ, pow_succ]
      ring
    rw [Finset.sum_congr rfl h1, ← Finset.mul_sum, List.getD_cons_zero,
        pow_zero, one_mul]
    ring

/-- Reading an entry of a mapped range list. -/
theorem getD_map_range (f : ℕ → ℚ) (n t : ℕ) (ht : t < n) :
    ((List.range n).map f).getD t 0 = f t := by
  rw [List.getD_eq_getElem?_getD, List.getElem?_map, List.getElem?_range ht]
  rfl

/-- Reading an entry of a dropped list. -/
theorem getD_drop_eq (l : List ℚ) (t k : ℕ) :
    (l.drop t).getD k 0 = l.getD (t + k) 0 := by
  rw [List.getD_eq_getElem?_getD, List.getD_eq_getElem?_getD,
      List.getElem?_drop]

/-- C1: for a buffer whose terminal flags are all false except at the last
step, the pre-normalization return at step t is the discounted sum over k
from t to the end of gamma^(k-t) times reward_k (indexed here as k = t + j),
with the earliest step's return first; and concretely, for rewards [1,1,1],
terminals [false,false,true] and gamma = 0.99 the returns are exactly
[2.9701, 1.99, 1.0]. -/
theorem returns_single_episode (γ : ℚ) (rewards : List ℚ)
    (terminals : List Bool) (t : ℕ) (hne : rewards ≠ [])
    (hterm : terminals = List.replicate (rewards.length - 1) false ++ [true])
    (ht : t < rewards.length) :
    (PPO.computeReturns γ rewards terminals).getD t 0 =
      ∑ k ∈ Finset.range (rewards.length - t),
        γ ^ k * rewards.getD (t + k) 0
    ∧ PPO.computeReturns gamma [1, 1, 1] [false, false, true] =
        [29701 / 10000, 199 / 100, 1] := by
  constructor
  · obtain ⟨r, rs, rfl⟩ : ∃ r rs, rewards = r :: rs := by
      cases rewards with
      | nil => exact absurd rfl hne
      | cons a as => exact ⟨a, as, rfl⟩
    subst hterm
    rw [show (r :: rs).length - 1 = rs.length from rfl,
        computeReturns_single_episode γ r rs,
        getD_map_range _ _ _ (by simpa using ht),
        discountedSum_eq_sum, List.length_drop]
    refine Finset.sum_congr rfl ?_
    intro k _
    rw [getD_drop_eq]
  · norm_num [PPO.computeReturns, returnFold, returnStep, gamma]

/-- Witness for C1 at the end-to-end scenario of the spec, step t = 0. -/
theorem returns_single_episode_witness :
    (([1, 1, 1] : List ℚ) ≠ []
     ∧ ([false, false, true] : List Bool) =
         List.replicate (([1, 1, 1] : List ℚ).length - 1) false ++ [true]
     ∧ 0 < ([1, 1, 1] : List ℚ).length)
    ∧ ((PPO.computeReturns gamma [1, 1, 1] [false, false, true]).getD 0 0 =
        ∑ k ∈ Finset.range (([1, 1, 1] : List ℚ).length - 0),
          gamma ^ k * ([1, 1, 1] : List ℚ).getD (0 + k) 0
       ∧ PPO.computeReturns gamma [1, 1, 1] [false, false, true] =
           [29701 / 10000, 199 / 100, 1]) :=
  ⟨⟨by decide, rfl, by decide⟩,
   returns_single_episode gamma [1, 1, 1] [false, false, true] 0
     (by decide) rfl (by decide)⟩

/-- C7: the scalar the code backpropagates - the batch mean of the vector
(-L_CLIP - 0.01 * entropy) with the scalar 0.5 * MseLoss broadcast into every
component - equals the batch average of the spec's per-step loss
(-surrogate + 0.5 * squared error - 0.01 * entropy). -/
theorem loss_mean_refines_step_loss {n : ℕ} (hn : 0 < n)
    (lclip v ret ent : Fin n → ℚ) :
    tmean (lossVector lclip v ret ent) =
      tmean (specStepLoss lclip v ret ent) := by
  have hn' : (n : ℚ) ≠ 0 := Nat.cast_ne_zero.mpr hn.ne'
  have key : ∑ i, lossVector lclip v ret ent i =
      ∑ i, specStepLoss lclip v ret ent i := by
    unfold lossVector specStepLoss MseLoss tmean
    rw [Finset.sum_sub_distrib, Finset.sum_sub_distrib,
        Finset.sum_add_distrib, Finset.sum_add_distrib]
    congr 1
    congr 1
    rw [Finset.sum_const, Finset.card_univ, Fintype.card_fin, nsmul_eq_mul,
        ← Finset.mul_sum]
    field_simp
    ring
  unfold tmean
  rw [key]

/-- Witness for C7 on a concrete batch of two steps. -/
theorem loss_mean_refines_step_loss_witness :
    0 < 2
    ∧ tmean (lossVector ![1, 2] ![3, 4] ![5, 6] ![7, 8]) =
        tmean (specStepLoss ![1, 2] ![3, 4] ![5, 6] ![7, 8]) :=
  ⟨by decide,
   loss_mean_refines_step_loss (by decide) ![1, 2] ![3, 4] ![5, 6] ![7, 8]⟩

/-- The centered values of any batch sum to zero. -/
theorem sum_centered {n : ℕ} (x : Fin n → ℝ) :
    ∑ i, (x i - tmeanR x) = 0 := by
  rcases Nat.eq_zero_or_pos n with h | h
  · subst h
    simp
  · have hn : (n : ℝ) ≠ 0 := Nat.cast_ne_zero.mpr h.ne'
    rw [Finset.sum_sub_distrib, Finset.sum_const, Finset.card_univ,
        Fintype.card_fin, nsmul_eq_mul]
    unfold tmeanR
    field_simp

/-- The mean after the normalization of line 115 is exactly zero. -/
theorem normalize_mean_zero {n : ℕ} (x : Fin n → ℝ) :
    tmeanR (normalizeReturns x) = 0 := by
  have h : ∑ i, normalizeReturns x i = 0 := by
    unfold normalizeReturns
    rw [← Finset.sum_div, sum_centered, zero_div]
  unfold tmeanR
  rw [h, zero_div]

/-- The unbiased variance after the normalization of line 115. -/
theorem normalize_var {n : ℕ} (x : Fin n → ℝ) :
    tvar (normalizeReturns x) = tvar x / (tstd x + 1 / 100000) ^ 2 := by
  unfold tvar
  rw [normalize_mean_zero]
  simp only [sub_zero]
  unfold normalizeReturns
  simp only [div_pow]
  rw [← Finset.sum_div, div_right_comm]

/-- The standard deviation after the normalization of line 115 is the
original standard deviation divided by itself plus 1e-5. -/
theorem normalize_std {n : ℕ} (x : Fin n → ℝ) (hvar : 0 ≤ tvar x) :
    tstd (normalizeReturns x) = tstd x / (tstd x + 1 / 100000) := by
  have h0 : (0 : ℝ) ≤ tstd x := Real.sqrt_nonneg (tvar x)
  have hd : (0 : ℝ) < tstd x + 1 / 100000 := by linarith
  calc tstd (normalizeReturns x)
      = Real.sqrt (tvar (normalizeReturns x)) := rfl
    _ = Real.sqrt (tvar x / (tstd x + 1 / 100000) ^ 2) := by
        rw [normalize_var]
    _ = Real.sqrt (tvar x) / Real.sqrt ((tstd x + 1 / 100000) ^ 2) :=
        Real.sqrt_div hvar _
    _ = tstd x / (tstd x + 1 / 100000) := by
        rw [Real.sqrt_sq hd.le]
        rfl

/-- The unbiased variance is never negative. -/
theorem tvar_nonneg {n : ℕ} (x : Fin n → ℝ) : 0 ≤ tvar x := by
  unfold tvar
  rcases Nat.eq_zero_or_pos n with h | h
  · subst h
    simp
  · apply div_nonneg (Finset.sum_nonneg fun i _ => sq_nonneg _)
    have h1 : (1 : ℝ) ≤ (n : ℝ) := by exact_mod_cast h
    linarith

/-- The unbiased variance of a non-constant batch of at least two values is
strictly positive. -/
theorem tvar_pos {n : ℕ} (hn : 2 ≤ n) (x : Fin n → ℝ) (i j : Fin n)
    (hij : x i ≠ x j) : 0 < tvar x := by
  unfold tvar
  apply div_pos
  · have key : x i ≠ tmeanR x ∨ x j ≠ tmeanR x := by
      by_contra hc
      push_neg at hc
      exact hij (hc.1.trans hc.2.symm)
    have hterm : ∀ k : Fin n, (0 : ℝ) ≤ (x k - tmeanR x) ^ 2 :=
      fun k => sq_nonneg _
    rcases key with h | h
    · refine Finset.sum_pos' (fun k _ => hterm k) ⟨i, Finset.mem_univ i, ?_⟩
      exact (hterm i).lt_of_ne
        (Ne.symm (pow_ne_zero 2 (sub_ne_zero_of_ne h)))
    · refine Finset.sum_pos' (fun k _ => hterm k) ⟨j, Finset.mem_univ j, ?_⟩
      exact (hterm j).lt_of_ne
        (Ne.symm (pow_ne_zero 2 (sub_ne_zero_of_ne h)))
  · have h2 : (2 : ℝ) ≤ (n : ℝ) := by exact_mod_cast hn
    linarith

/-- C6 amended: for every non-constant return sequence of length at least
two, the normalization of line 115 yields mean exactly 0 and standard
deviation exactly std/(std + 1e-5), which is strictly between 0 and 1 - it
approaches 1 only when the original standard deviation dominates 1e-5, and is
not close to 1 for sequences whose spread is comparable to 1e-5. -/
theorem normalize_mean_zero_std_lt_one {n : ℕ} (x : Fin n → ℝ) (hn : 2 ≤ n)
    (hnc : ∃ i j, x i ≠ x j) :
    tmeanR (normalizeReturns x) = 0
    ∧ tstd (normalizeReturns x) = tstd x / (tstd x + 1 / 100000)
    ∧ 0 < tstd (normalizeReturns x)
    ∧ tstd (normalizeReturns x) < 1 := by
  obtain ⟨i, j, hij⟩ := hnc
  have hvar : 0 ≤ tvar x := tvar_nonneg x
  have hpos : 0 < tvar x := tvar_pos hn x i j hij
  have hs : 0 < tstd x := Real.sqrt_pos.mpr hpos
  have hd : 0 < tstd x + 1 / 100000 := by linarith
  refine ⟨normalize_mean_zero x, normalize_std x hvar, ?_, ?_⟩
  · rw [normalize_std x hvar]
    exact div_pos hs hd
  · rw [normalize_std x hvar, div_lt_one hd]
    linarith

/-- Witness for C6 amended on the non-constant batch (0, 1). -/
theorem normalize_mean_zero_std_lt_one_witness :
    (2 ≤ 2 ∧ ![(0 : ℝ), 1] 0 ≠ ![(0 : ℝ), 1] 1)
    ∧ (tmeanR (normalizeReturns ![(0 : ℝ), 1]) = 0
       ∧ tstd (normalizeReturns ![(0 : ℝ), 1]) =
           tstd ![(0 : ℝ), 1] / (tstd ![(0 : ℝ), 1] + 1 / 100000)
       ∧ 0 < tstd (normalizeReturns ![(0 : ℝ), 1])
       ∧ tstd (normalizeReturns ![(0 : ℝ), 1]) < 1) :=
  ⟨⟨by norm_num, by norm_num⟩,
   normalize_mean_zero_std_lt_one ![(0 : ℝ), 1] (by norm_num)
     ⟨0, 1, by norm_num⟩⟩

/-- C6 counterexample: the non-constant two-step return sequence
(0, sqrt 2 / 100000) has sample standard deviation exactly 1e-5, and after
the normalization of line 115 its standard deviation is exactly 1/2 - not
approximately 1 within any floating tolerance. -/
theorem normalize_std_can_be_half :
    (![(0 : ℝ), Real.sqrt 2 / 100000] 0 ≠ ![(0 : ℝ), Real.sqrt 2 / 100000] 1)
    ∧ tstd ![(0 : ℝ), Real.sqrt 2 / 100000] = 1 / 100000
    ∧ tstd (normalizeReturns ![(0 : ℝ), Real.sqrt 2 / 100000]) = 1 / 2 := by
  have hc : (0 : ℝ) < Real.sqrt 2 / 100000 :=
    div_pos (Real.sqrt_pos.mpr (by norm_num)) (by norm_num)
  have h2 : Real.sqrt 2 ^ 2 = 2 := Real.sq_sqrt (by norm_num)
  have hmean : tmeanR ![(0 : ℝ), Real.sqrt 2 / 100000] =
      Real.sqrt 2 / 200000 := by
    unfold tmeanR
    rw [Fin.sum_univ_two]
    simp only [Matrix.cons_val_zero, Matrix.cons_val_one, Matrix.head_cons,
      Nat.cast_ofNat]
    ring
  have hvar : tvar ![(0 : ℝ), Real.sqrt 2 / 100000] =
      1 / 10000000000 := by
    unfold tvar
    rw [Fin.sum_univ_two, hmean]
    simp only [Matrix.cons_val_zero, Matrix.cons_val_one, Matrix.head_cons,
      Nat.cast_ofNat]
    linear_combination (1 / 20000000000 : ℝ) * h2
  have hstd : tstd ![(0 : ℝ), Real.sqrt 2 / 100000] = 1 / 100000 := by
    have hsq : tvar ![(0 : ℝ), Real.sqrt 2 / 100000] =
        ((1 : ℝ) / 100000) ^ 2 := by
      rw [hvar]
      norm_num
    unfold tstd
    rw [hsq, Real.sqrt_sq (by norm_num)]
  refine ⟨?_, hstd, ?_⟩
  · simp only [Matrix.cons_val_zero, Matrix.cons_val_one, Matrix.head_cons]
    exact hc.ne
  · rw [normalize_std _ (by rw [hvar]; norm_num), hstd]
    norm_num

/-- Witness for C4 amended at eps = eps_clip, ratio 1, advantage 1. -/
theorem surrogate_clipping_cases_witness :
    (0 : ℚ) ≤ 1 / 5
    ∧ (((1 : ℚ) - 1 / 5 ≤ 1 → (1 : ℚ) ≤ 1 + 1 / 5 →
          clippedSurrogate (1 / 5) 1 1 = 1 * 1)
       ∧ ((1 : ℚ) + 1 / 5 < 1 → (0 : ℚ) < 1 →
          clippedSurrogate (1 / 5) 1 1 = (1 + 1 / 5) * 1)
       ∧ ((1 : ℚ) < 1 - 1 / 5 → (0 : ℚ) < 1 →
          clippedSurrogate (1 / 5) 1 1 = 1 * 1
          ∧ clippedSurrogate (1 / 5) 1 1 < (1 - 1 / 5) * 1)) :=
  ⟨by norm_num, surrogate_clipping_cases (1 / 5) 1 1 (by norm_num)⟩

end PPOc
